import Mathlib

/-!
Verification of the markdown-bash-checker program (src/markdown_bash_checker.py):
a shallow embedding of the command model (`BashEnv`, `BashExec`, `BashOutput`),
the shell wrapper `run`, the classification factory, and the execution engine
`_execute_bash_commands`, together with theorems settling the specification
claims about them.

The shell itself is external: it is modelled as a function from a submitted
script string to an exit code and captured output.  Python's
`subprocess.check_output(cmd, shell=True)` returns the captured output on exit
code zero and raises `CalledProcessError` (carrying `returncode` and `output`)
otherwise; `run` re-raises that error.  Byte decoding is the identity in this
string-level model.
-/

namespace MarkdownBashChecker

/-- Result of one shell invocation: exit code and captured output. -/
structure ShellResult where
  exitCode : Int
  output : String
deriving DecidableEq, Repr

/-- A shell: maps the submitted script text to its exit code and output.
One application of the shell is one fresh shell invocation. -/
def Shell : Type := String → ShellResult

/-- `subprocess.CalledProcessError` as surfaced by `run`: exit code and
captured output of a failed invocation (spec name: `ExecutionError`). -/
structure ExecutionError where
  returncode : Int
  output : String
deriving DecidableEq, Repr

/-- Embeds `run` (markdown_bash_checker.py lines 27-37): submit `cmd` as one
shell invocation; on exit code zero return the captured output (decoded),
otherwise fail with the exit code and output. -/
def run (shell : Shell) (cmd : String) : Except ExecutionError String :=
  let result := shell cmd
  if result.exitCode = 0 then
    Except.ok result.output
  else
    Except.error { returncode := result.exitCode, output := result.output }

/-- The three command kinds produced by classification: `BashEnv` wraps
`bash-env` blocks, `BashExec` wraps `bash-exec` blocks, `BashOutput` wraps
`bash-output` blocks.  (In the Python source `BashEnv` is a subclass of
`BashExec`; the engine dispatches on the most specific class, which this
closed sum reproduces.) -/
inductive BashCmd where
  | bashEnv (code : String)
  | bashExec (code : String)
  | bashOutput (code : String)
deriving DecidableEq, Repr

/-- Embeds `BashExec.get_executable_command_string`: identity passthrough of
the captured text (shared by `BashEnv` through inheritance). -/
def BashCmd.get_executable_command_string : BashCmd → String
  | .bashEnv code => code
  | .bashExec code => code
  | .bashOutput code => code

/-- Whether the engine executes this command kind via the shell
(environment and executable commands; output assertions are never run). -/
def BashCmd.isRunnable : BashCmd → Bool
  | .bashEnv _ => true
  | .bashExec _ => true
  | .bashOutput _ => false

/-- Embeds `BashExec.execute_with_prereqs_and_return_results`
(lines 54-66): joins, in order, every prerequisite's command string followed
by this command's own string with newlines, and submits the joined text as
one shell invocation via `run`. -/
def execute_with_prereqs_and_return_results (shell : Shell) (self : BashCmd)
    (prereqs : List BashCmd) : Except ExecutionError String :=
  let all_commands :=
    prereqs.map BashCmd.get_executable_command_string
      ++ [self.get_executable_command_string]
  run shell (String.intercalate "\n" all_commands)

/-- Python's `actual_output.endswith("\n")`: true exactly when the string's
last character is a newline. -/
def ends_with_newline (s : String) : Bool :=
  match s.data.getLast? with
  | some c => c = '\n'
  | none => false

/-- The mismatch error raised by `BashOutput.compare_with_actual_output`
(spec name: `ComparisonError`): carries the expected string and the
(possibly trimmed) actual string. -/
structure ComparisonError where
  expected : String
  actual : String
deriving DecidableEq, Repr

/-- Embeds `BashOutput.compare_with_actual_output` (lines 80-99): if
`trim_trailing_newline` is set and the actual output ends with a newline,
drop that one final character; then succeed exactly when the expected text
equals the (possibly trimmed) actual text, else fail carrying both. -/
def compare_with_actual_output (output_to_check : String) (actual_output : String)
    (trim_trailing_newline : Bool) : Except ComparisonError Unit :=
  let actual :=
    if trim_trailing_newline && ends_with_newline actual_output then
      actual_output.dropRight 1
    else
      actual_output
  if output_to_check = actual then
    Except.ok ()
  else
    Except.error { expected := output_to_check, actual := actual }

/-- The Python default value of the `trim_trailing_newline` parameter of
`compare_with_actual_output` (line 80: `trim_trailing_newline=False`). -/
def trim_trailing_newline_default : Bool := false

/-- Calling `compare_with_actual_output` without the `trim_trailing_newline`
argument: Python fills in the declared default. -/
def compare_with_actual_output_nodefaultarg (output_to_check : String)
    (actual_output : String) : Except ComparisonError Unit :=
  compare_with_actual_output output_to_check actual_output trim_trailing_newline_default

/-- Embeds `MyRenderer._bash_command_factory` (lines 108-117): tag
`bash-env` yields a `BashEnv`, `bash-exec` a `BashExec`, `bash-output` a
`BashOutput`; any other tag (including an absent one, Python `None`) falls
through to `pass`, i.e. yields nothing. -/
def bash_command_factory (code : String) (lang : Option String) : Option BashCmd :=
  match lang with
  | some l =>
    if l = "bash-env" then some (BashCmd.bashEnv code)
    else if l = "bash-exec" then some (BashCmd.bashExec code)
    else if l = "bash-output" then some (BashCmd.bashOutput code)
    else none
  | none => none

/-- Embeds `MyRenderer._update_bash_commands` folded over every code block of
the document in source order (`block_code` calls it once per fenced block):
blocks whose factory result is `None` are not appended. -/
def classify_blocks (blocks : List (String × Option String)) : List BashCmd :=
  blocks.filterMap (fun block => bash_command_factory block.1 block.2)

/-- The engine's two state slots (lines 194-195): the ordered accumulation
list of environment-altering commands and the optional most recent output
(`None` before any command has executed). -/
structure EngineState where
  current_env_altering_commands : List BashCmd
  most_recent_result : Option String
deriving DecidableEq, Repr

/-- The engine's error outcomes: a failed shell invocation propagated from
`run` (`ExecutionError`), a failed output comparison (`ComparisonError`),
and the `assert most_recent_result is not None` failure on an assertion with
no preceding result (spec name: `SequenceError`). -/
inductive CheckerError where
  | executionError (e : ExecutionError)
  | comparisonError (e : ComparisonError)
  | sequenceError
deriving DecidableEq, Repr

/-- One iteration of the loop body of `MarkdownChecker._execute_bash_commands`
(lines 197-215): `BashEnv` is executed with the current accumulated list as
prerequisites, its output stored, and only then appended; `BashExec` is
executed the same way but not appended; `BashOutput` requires a defined most
recent result and compares against it with `trim_trailing_newline` set to
true.  Any raised error propagates. -/
def engine_step (shell : Shell) (st : EngineState) : BashCmd → Except CheckerError EngineState
  | BashCmd.bashEnv code =>
    match execute_with_prereqs_and_return_results shell (BashCmd.bashEnv code)
        st.current_env_altering_commands with
    | Except.ok result =>
      Except.ok
        { current_env_altering_commands :=
            st.current_env_altering_commands ++ [BashCmd.bashEnv code],
          most_recent_result := some result }
    | Except.error e => Except.error (CheckerError.executionError e)
  | BashCmd.bashExec code =>
    match execute_with_prereqs_and_return_results shell (BashCmd.bashExec code)
        st.current_env_altering_commands with
    | Except.ok result =>
      Except.ok
        { current_env_altering_commands := st.current_env_altering_commands,
          most_recent_result := some result }
    | Except.error e => Except.error (CheckerError.executionError e)
  | BashCmd.bashOutput code =>
    match st.most_recent_result with
    | none => Except.error CheckerError.sequenceError
    | some result =>
      match compare_with_actual_output code result true with
      | Except.ok _ => Except.ok st
      | Except.error e => Except.error (CheckerError.comparisonError e)

/-- The loop of `_execute_bash_commands` over the remaining commands: the
first error stops the run; no command after it is processed. -/
def engine_run (shell : Shell) (st : EngineState) :
    List BashCmd → Except CheckerError EngineState
  | [] => Except.ok st
  | cmd :: rest =>
    match engine_step shell st cmd with
    | Except.ok st' => engine_run shell st' rest
    | Except.error e => Except.error e

/-- Embeds `MarkdownChecker._execute_bash_commands` (lines 189-215): start
from the empty accumulation list and an undefined most recent result and
process the classified sequence in document order. -/
def execute_bash_commands (shell : Shell) (commands : List BashCmd) :
    Except CheckerError EngineState :=
  engine_run shell
    { current_env_altering_commands := [], most_recent_result := none } commands

/-- The tags the factory recognizes: exactly `bash-env`, `bash-exec` and
`bash-output`; an absent tag (Python `None`) is never recognized. -/
def recognized_tag : Option String → Bool
  | some l => l == "bash-env" || l == "bash-exec" || l == "bash-output"
  | none => false

/-- A deterministic test shell that answers every script with exit code 0 and
output `"foo\n"` (what `echo foo` prints). -/
def shellConstFoo : Shell := fun _ => { exitCode := 0, output := "foo\n" }

/-- A deterministic test shell on which every script fails with exit code 2,
like `ezport FOO=foo` under a shell that does not know `ezport`. -/
def shellFailing : Shell := fun _ => { exitCode := 2, output := "" }

theorem engine_step_cur_mono (shell : Shell) (st st' : EngineState) (cmd : BashCmd)
    (h : engine_step shell st cmd = Except.ok st') :
    st.current_env_altering_commands <+: st'.current_env_altering_commands := by
  cases cmd with
  | bashEnv code =>
    simp only [engine_step] at h
    split at h
    · cases h
      exact ⟨[BashCmd.bashEnv code], rfl⟩
    · cases h
  | bashExec code =>
    simp only [engine_step] at h
    split at h
    · cases h
      exact ⟨[], List.append_nil _⟩
    · cases h
  | bashOutput code =>
    simp only [engine_step] at h
    split at h
    · cases h
    · split at h
      · cases h
        exact ⟨[], List.append_nil _⟩
      · cases h

theorem engine_run_cur_mono (shell : Shell) (st st' : EngineState) (cmds : List BashCmd)
    (h : engine_run shell st cmds = Except.ok st') :
    st.current_env_altering_commands <+: st'.current_env_altering_commands := by
  induction cmds generalizing st with
  | nil =>
    simp only [engine_run] at h
    cases h
    exact ⟨[], List.append_nil _⟩
  | cons cmd rest ih =>
    simp only [engine_run] at h
    split at h
    case _ st₁ hstep =>
      exact List.IsPrefix.trans (engine_step_cur_mono shell st st₁ cmd hstep) (ih st₁ h)
    case _ e hstep =>
      cases h


/-- Claim C1: when an environment command executes successfully, the engine
runs it with prerequisites equal to the accumulated list as it stands (the
submitted script is those prerequisites' strings followed by its own string,
so it is not a prerequisite of itself), stores the captured output into the
most-recent-result slot, and only then appends it to the accumulated list,
after which it belongs to the accumulated list of every later state reached,
and an output assertion may directly follow, checked against this command's
own output. -/
theorem C1_env_command_execution (shell : Shell) (st : EngineState)
    (c r exp : String) (cmds : List BashCmd) (st₂ : EngineState)
    (h : execute_with_prereqs_and_return_results shell (BashCmd.bashEnv c)
      st.current_env_altering_commands = Except.ok r)
    (h₂ : engine_run shell
      { current_env_altering_commands :=
          st.current_env_altering_commands ++ [BashCmd.bashEnv c],
        most_recent_result := some r } cmds = Except.ok st₂) :
    engine_step shell st (BashCmd.bashEnv c) = Except.ok
      { current_env_altering_commands :=
          st.current_env_altering_commands ++ [BashCmd.bashEnv c],
        most_recent_result := some r }
    ∧ run shell (String.intercalate "\n"
        (st.current_env_altering_commands.map BashCmd.get_executable_command_string
          ++ [c])) = Except.ok r
    ∧ BashCmd.bashEnv c ∈ st₂.current_env_altering_commands
    ∧ engine_step shell
        { current_env_altering_commands :=
            st.current_env_altering_commands ++ [BashCmd.bashEnv c],
          most_recent_result := some r } (BashCmd.bashOutput exp) =
        (match compare_with_actual_output exp r true with
         | Except.ok _ => Except.ok
             { current_env_altering_commands :=
                 st.current_env_altering_commands ++ [BashCmd.bashEnv c],
               most_recent_result := some r }
         | Except.error ce => Except.error (CheckerError.comparisonError ce)) := by
  refine ⟨?_, ?_, ?_, ?_⟩
  · simp only [engine_step, h]
  · exact h
  · exact (engine_run_cur_mono shell _ st₂ cmds h₂).subset (by simp)
  · simp only [engine_step]

theorem C1_env_command_execution_witness :
    engine_step shellConstFoo
      { current_env_altering_commands := [], most_recent_result := none }
      (BashCmd.bashEnv "export FOO=foo") = Except.ok
      { current_env_altering_commands := [BashCmd.bashEnv "export FOO=foo"],
        most_recent_result := some "foo\n" }
    ∧ run shellConstFoo "export FOO=foo" = Except.ok "foo\n"
    ∧ BashCmd.bashEnv "export FOO=foo" ∈ [BashCmd.bashEnv "export FOO=foo"]
    ∧ engine_step shellConstFoo
        { current_env_altering_commands := [BashCmd.bashEnv "export FOO=foo"],
          most_recent_result := some "foo\n" } (BashCmd.bashOutput "foo") =
        Except.ok
          { current_env_altering_commands := [BashCmd.bashEnv "export FOO=foo"],
            most_recent_result := some "foo\n" } :=
  C1_env_command_execution shellConstFoo
    { current_env_altering_commands := [], most_recent_result := none }
    "export FOO=foo" "foo\n" "foo" [BashCmd.bashExec "echo $FOO"]
    { current_env_altering_commands := [BashCmd.bashEnv "export FOO=foo"],
      most_recent_result := some "foo\n" }
    (by rfl) (by rfl)


/-- Claim C2: `execute_with_prereqs_and_return_results` submits the
prerequisites' command strings followed by the command's own string, joined
by newlines in order, as one shell invocation (`run` is the single-invocation
primitive) and returns the captured output; in particular an executable
command X run after accumulated environment commands E1 then E2 submits the
script `E1\nE2\nX`, i.e. runs E1, then E2, then X in that order in one fresh
shell, and that is exactly what the engine does for X in that state. -/
theorem C2_run_with_prerequisites (shell : Shell) (cmd : BashCmd)
    (prereqs : List BashCmd) (e1 e2 x : String) (m : Option String)
    (_hrunnable : cmd.isRunnable = true) :
    execute_with_prereqs_and_return_results shell cmd prereqs =
      run shell (String.intercalate "\n"
        (prereqs.map BashCmd.get_executable_command_string
          ++ [cmd.get_executable_command_string]))
    ∧ execute_with_prereqs_and_return_results shell (BashCmd.bashExec x)
        [BashCmd.bashEnv e1, BashCmd.bashEnv e2] =
      run shell (e1 ++ "\n" ++ e2 ++ "\n" ++ x)
    ∧ engine_step shell
        { current_env_altering_commands := [BashCmd.bashEnv e1, BashCmd.bashEnv e2],
          most_recent_result := m } (BashCmd.bashExec x) =
      (match run shell (e1 ++ "\n" ++ e2 ++ "\n" ++ x) with
       | Except.ok res => Except.ok
           { current_env_altering_commands :=
               [BashCmd.bashEnv e1, BashCmd.bashEnv e2],
             most_recent_result := some res }
       | Except.error err => Except.error (CheckerError.executionError err)) := by
  have hscript : String.intercalate "\n" [e1, e2, x] = e1 ++ "\n" ++ e2 ++ "\n" ++ x := by
    simp [String.intercalate, String.intercalate.go]
  refine ⟨rfl, ?_, ?_⟩
  · simp only [execute_with_prereqs_and_return_results, List.map,
      BashCmd.get_executable_command_string]
    rw [show ([e1, e2] ++ [x] : List String) = [e1, e2, x] from rfl, hscript]
  · simp only [engine_step, execute_with_prereqs_and_return_results, List.map,
      BashCmd.get_executable_command_string]
    rw [show ([e1, e2] ++ [x] : List String) = [e1, e2, x] from rfl, hscript]

theorem C2_run_with_prerequisites_witness :
    execute_with_prereqs_and_return_results shellConstFoo (BashCmd.bashExec "echo $FOO")
      [BashCmd.bashEnv "export FOO=foo"] =
      run shellConstFoo (String.intercalate "\n" ["export FOO=foo", "echo $FOO"])
    ∧ execute_with_prereqs_and_return_results shellConstFoo (BashCmd.bashExec "echo $FOO")
        [BashCmd.bashEnv "export FOO=foo", BashCmd.bashEnv "export BAR=bar"] =
      run shellConstFoo ("export FOO=foo" ++ "\n" ++ "export BAR=bar" ++ "\n" ++ "echo $FOO")
    ∧ engine_step shellConstFoo
        { current_env_altering_commands :=
            [BashCmd.bashEnv "export FOO=foo", BashCmd.bashEnv "export BAR=bar"],
          most_recent_result := none } (BashCmd.bashExec "echo $FOO") =
      Except.ok
        { current_env_altering_commands :=
            [BashCmd.bashEnv "export FOO=foo", BashCmd.bashEnv "export BAR=bar"],
          most_recent_result := some "foo\n" } :=
  C2_run_with_prerequisites shellConstFoo (BashCmd.bashExec "echo $FOO")
    [BashCmd.bashEnv "export FOO=foo"] "export FOO=foo" "export BAR=bar" "echo $FOO"
    none (by rfl)



/-- Claim C3: with `trim_trailing_newline` true, the comparison strips
exactly one trailing newline from the actual output when its last character
is a newline — never more than one, and no other trailing whitespace — and
then tests string equality; `"foo\n"` matches expected `"foo"` while
`"foo\n\n"` does not (one newline survives), and trailing spaces or tabs are
never stripped. -/
theorem C3_trim_one_trailing_newline (e a : String) :
    (compare_with_actual_output e a true = Except.ok () ↔
      e = (if ends_with_newline a then a.dropRight 1 else a))
    ∧ compare_with_actual_output "foo" "foo\n" true = Except.ok ()
    ∧ compare_with_actual_output "foo" "foo\n\n" true =
        Except.error { expected := "foo", actual := "foo\n" }
    ∧ compare_with_actual_output "foo" "foo " true =
        Except.error { expected := "foo", actual := "foo " }
    ∧ compare_with_actual_output "foo" "foo\t" true =
        Except.error { expected := "foo", actual := "foo\t" } := by
  refine ⟨?_, by rfl, by rfl, by rfl, by rfl⟩
  simp only [compare_with_actual_output, Bool.true_and]
  by_cases hnl : ends_with_newline a = true
  · simp only [hnl, if_true]
    by_cases he : e = a.dropRight 1
    · simp [he]
    · simp [he]
  · simp only [Bool.not_eq_true] at hnl
    simp only [hnl, Bool.false_eq_true, if_false]
    by_cases he : e = a
    · simp [he]
    · simp [he]


theorem bash_command_factory_unrecognized (c : String) (t : Option String)
    (h : recognized_tag t = false) : bash_command_factory c t = none := by
  cases t with
  | none => rfl
  | some l =>
    simp only [recognized_tag, Bool.or_eq_false_iff, beq_eq_false_iff_ne, ne_eq] at h
    simp only [bash_command_factory, if_neg h.1.1, if_neg h.1.2, if_neg h.2]

/-- Claim C4: classification maps tag `bash-env` to an environment command,
`bash-exec` to an executable command and `bash-output` to an output
assertion, and silently discards any block with any other tag, including an
absent tag, without error; a document with no recognized tags classifies to
the empty sequence, on which the run succeeds trivially. -/
theorem C4_classification (c : String) (t : Option String)
    (blocks : List (String × Option String)) (shell : Shell)
    (h : recognized_tag t = false)
    (hb : ∀ b ∈ blocks, recognized_tag b.2 = false) :
    bash_command_factory c (some "bash-env") = some (BashCmd.bashEnv c)
    ∧ bash_command_factory c (some "bash-exec") = some (BashCmd.bashExec c)
    ∧ bash_command_factory c (some "bash-output") = some (BashCmd.bashOutput c)
    ∧ bash_command_factory c t = none
    ∧ bash_command_factory c none = none
    ∧ classify_blocks blocks = []
    ∧ execute_bash_commands shell (classify_blocks blocks) = Except.ok
        { current_env_altering_commands := [], most_recent_result := none } := by
  have hnil : classify_blocks blocks = [] := by
    simp only [classify_blocks, List.filterMap_eq_nil_iff]
    intro b hbmem
    exact bash_command_factory_unrecognized b.1 b.2 (hb b hbmem)
  refine ⟨rfl, rfl, rfl, bash_command_factory_unrecognized c t h, rfl, hnil, ?_⟩
  rw [hnil]
  rfl

theorem C4_classification_witness :
    bash_command_factory "print(1)" (some "bash-env") = some (BashCmd.bashEnv "print(1)")
    ∧ bash_command_factory "print(1)" (some "bash-exec") = some (BashCmd.bashExec "print(1)")
    ∧ bash_command_factory "print(1)" (some "bash-output") = some (BashCmd.bashOutput "print(1)")
    ∧ bash_command_factory "print(1)" (some "python") = none
    ∧ bash_command_factory "print(1)" none = none
    ∧ classify_blocks [("print(1)", some "python"), ("plain text", none)] = []
    ∧ execute_bash_commands shellConstFoo
        (classify_blocks [("print(1)", some "python"), ("plain text", none)]) = Except.ok
        { current_env_altering_commands := [], most_recent_result := none } :=
  C4_classification "print(1)" (some "python")
    [("print(1)", some "python"), ("plain text", none)] shellConstFoo
    (by rfl) (by decide)


/-- Claim C5: when the shell exits with non-zero status on the script
submitted for an environment or executable command, the operation fails with
an `ExecutionError` carrying that exit code and the captured output; the
engine does not retry, the error propagates, and the remaining command
sequence is not processed, whatever it is. -/
theorem C5_execution_error_aborts (shell : Shell) (st : EngineState)
    (cmd : BashCmd) (rest : List BashCmd) (ec : Int) (out : String)
    (hrunnable : cmd.isRunnable = true)
    (hshell : shell (String.intercalate "\n"
      (st.current_env_altering_commands.map BashCmd.get_executable_command_string
        ++ [cmd.get_executable_command_string])) = { exitCode := ec, output := out })
    (hec : ec ≠ 0) :
    execute_with_prereqs_and_return_results shell cmd
        st.current_env_altering_commands =
      Except.error { returncode := ec, output := out }
    ∧ engine_step shell st cmd =
      Except.error (CheckerError.executionError { returncode := ec, output := out })
    ∧ engine_run shell st (cmd :: rest) =
      Except.error (CheckerError.executionError { returncode := ec, output := out }) := by
  have hexec : execute_with_prereqs_and_return_results shell cmd
      st.current_env_altering_commands =
      Except.error { returncode := ec, output := out } := by
    simp only [execute_with_prereqs_and_return_results, run, hshell, if_neg hec]
  have hstep : engine_step shell st cmd =
      Except.error (CheckerError.executionError { returncode := ec, output := out }) := by
    cases cmd with
    | bashEnv code => simp only [engine_step, hexec]
    | bashExec code => simp only [engine_step, hexec]
    | bashOutput code =>
      simp only [BashCmd.isRunnable] at hrunnable
      exact Bool.noConfusion hrunnable
  refine ⟨hexec, hstep, ?_⟩
  simp only [engine_run, hstep]

theorem C5_execution_error_aborts_witness :
    execute_with_prereqs_and_return_results shellFailing (BashCmd.bashExec "ezport FOO=foo")
        [] = Except.error { returncode := 2, output := "" }
    ∧ engine_step shellFailing
        { current_env_altering_commands := [], most_recent_result := none }
        (BashCmd.bashExec "ezport FOO=foo") =
      Except.error (CheckerError.executionError { returncode := 2, output := "" })
    ∧ engine_run shellFailing
        { current_env_altering_commands := [], most_recent_result := none }
        [BashCmd.bashExec "ezport FOO=foo", BashCmd.bashOutput "foo"] =
      Except.error (CheckerError.executionError { returncode := 2, output := "" }) :=
  C5_execution_error_aborts shellFailing
    { current_env_altering_commands := [], most_recent_result := none }
    (BashCmd.bashExec "ezport FOO=foo") [BashCmd.bashOutput "foo"] 2 ""
    (by rfl) (by rfl) (by decide)


/-- Claim C6: an output assertion encountered while the most recent result is
still undefined fails fast with the fatal `SequenceError` (the run aborts
regardless of what follows); when the most recent result is defined, the
engine verifies it with `trim_trailing_newline` set to true, unconditionally
on this path. -/
theorem C6_assertion_requires_result (shell : Shell) (st₁ st₂ : EngineState)
    (e r : String) (rest : List BashCmd)
    (h₁ : st₁.most_recent_result = none)
    (h₂ : st₂.most_recent_result = some r) :
    engine_step shell st₁ (BashCmd.bashOutput e) =
      Except.error CheckerError.sequenceError
    ∧ engine_run shell st₁ (BashCmd.bashOutput e :: rest) =
      Except.error CheckerError.sequenceError
    ∧ engine_step shell st₂ (BashCmd.bashOutput e) =
      (match compare_with_actual_output e r true with
       | Except.ok _ => Except.ok st₂
       | Except.error ce => Except.error (CheckerError.comparisonError ce)) := by
  have hstep : engine_step shell st₁ (BashCmd.bashOutput e) =
      Except.error CheckerError.sequenceError := by
    simp only [engine_step, h₁]
  refine ⟨hstep, ?_, ?_⟩
  · simp only [engine_run, hstep]
  · simp only [engine_step, h₂]

theorem C6_assertion_requires_result_witness :
    engine_step shellConstFoo
      { current_env_altering_commands := [], most_recent_result := none }
      (BashCmd.bashOutput "foo") = Except.error CheckerError.sequenceError
    ∧ engine_run shellConstFoo
        { current_env_altering_commands := [], most_recent_result := none }
        [BashCmd.bashOutput "foo", BashCmd.bashExec "echo $FOO"] =
      Except.error CheckerError.sequenceError
    ∧ engine_step shellConstFoo
        { current_env_altering_commands := [], most_recent_result := some "foo\n" }
        (BashCmd.bashOutput "foo") =
      Except.ok { current_env_altering_commands := [], most_recent_result := some "foo\n" } :=
  C6_assertion_requires_result shellConstFoo
    { current_env_altering_commands := [], most_recent_result := none }
    { current_env_altering_commands := [], most_recent_result := some "foo\n" }
    "foo" "foo\n" [BashCmd.bashExec "echo $FOO"] (by rfl) (by rfl)


/-- Claim C7: verification succeeds exactly when the expected text equals the
(possibly trimmed) actual output, and on any mismatch it fails with a
`ComparisonError` carrying both the expected string and the (possibly
trimmed) actual string; in particular expected `foobar` against actual
`foo\n` fails with expected `foobar` and actual `foo`. -/
theorem C7_verify_exact_equality (e a : String) (t : Bool) :
    (compare_with_actual_output e a t = Except.ok () ↔
      e = (if t && ends_with_newline a then a.dropRight 1 else a))
    ∧ (e ≠ (if t && ends_with_newline a then a.dropRight 1 else a) →
        compare_with_actual_output e a t = Except.error
          { expected := e,
            actual := if t && ends_with_newline a then a.dropRight 1 else a })
    ∧ compare_with_actual_output "foobar" "foo\n" true =
        Except.error { expected := "foobar", actual := "foo" } := by
  refine ⟨?_, ?_, by rfl⟩
  · simp only [compare_with_actual_output]
    by_cases he : e = (if t && ends_with_newline a then a.dropRight 1 else a)
    · simp [he]
    · simp [he]
  · intro hne
    simp only [compare_with_actual_output, if_neg hne]

theorem C7_verify_exact_equality_witness :
    (compare_with_actual_output "foobar" "foo\n" true = Except.ok () ↔
      "foobar" = "foo")
    ∧ compare_with_actual_output "foobar" "foo\n" true =
        Except.error { expected := "foobar", actual := "foo" } := by
  have h := C7_verify_exact_equality "foobar" "foo\n" true
  exact ⟨h.1, h.2.1 (by decide)⟩


/-- Claim C8: a successfully processed executable command leaves the
accumulated environment list unchanged (it is never appended), and a
successfully processed output assertion changes neither the accumulated list
nor the most recent result (the post-state is the pre-state), so a second
assertion right after it is checked against the very same most-recent
result. -/
theorem C8_frame_effects (shell : Shell) (st st₂ st' st₂' : EngineState)
    (c e e₂ : String)
    (h : engine_step shell st (BashCmd.bashExec c) = Except.ok st')
    (h₂ : engine_step shell st₂ (BashCmd.bashOutput e) = Except.ok st₂') :
    st'.current_env_altering_commands = st.current_env_altering_commands
    ∧ st₂' = st₂
    ∧ engine_step shell st₂' (BashCmd.bashOutput e₂) =
        engine_step shell st₂ (BashCmd.bashOutput e₂) := by
  have hfix : st₂' = st₂ := by
    simp only [engine_step] at h₂
    split at h₂
    · cases h₂
    · split at h₂
      · cases h₂
        rfl
      · cases h₂
  refine ⟨?_, hfix, by rw [hfix]⟩
  simp only [engine_step] at h
  split at h
  · cases h
    rfl
  · cases h
theorem C8_frame_effects_witness :
    EngineState.current_env_altering_commands
        { current_env_altering_commands := [], most_recent_result := some "foo\n" } = []
    ∧ ({ current_env_altering_commands := [], most_recent_result := some "foo\n" }
        : EngineState) =
      { current_env_altering_commands := [], most_recent_result := some "foo\n" }
    ∧ engine_step shellConstFoo
        { current_env_altering_commands := [], most_recent_result := some "foo\n" }
        (BashCmd.bashOutput "foo") =
      engine_step shellConstFoo
        { current_env_altering_commands := [], most_recent_result := some "foo\n" }
        (BashCmd.bashOutput "foo") :=
  C8_frame_effects shellConstFoo
    { current_env_altering_commands := [], most_recent_result := none }
    { current_env_altering_commands := [], most_recent_result := some "foo\n" }
    { current_env_altering_commands := [], most_recent_result := some "foo\n" }
    { current_env_altering_commands := [], most_recent_result := some "foo\n" }
    "echo $FOO" "foo" "foo" (by rfl) (by rfl)


/-- Claim C9: an environment command is appended to the accumulated list only
upon successful execution — when its shell invocation fails, the engine stops
with the execution error and no successor state exists, so the failed command
never becomes a prerequisite — and the engine only ever extends the
accumulated list: across any successfully processed command sequence the
earlier list stays a prefix of the later one, so an appended command is
retained, never removed. -/
theorem C9_append_only_on_success (shell shell₂ : Shell) (st st₃ st₄ : EngineState)
    (c : String) (ex : ExecutionError) (rest cmds : List BashCmd)
    (h : execute_with_prereqs_and_return_results shell (BashCmd.bashEnv c)
      st.current_env_altering_commands = Except.error ex)
    (h₂ : engine_run shell₂ st₃ cmds = Except.ok st₄) :
    engine_step shell st (BashCmd.bashEnv c) =
      Except.error (CheckerError.executionError ex)
    ∧ engine_run shell st (BashCmd.bashEnv c :: rest) =
      Except.error (CheckerError.executionError ex)
    ∧ st₃.current_env_altering_commands <+: st₄.current_env_altering_commands := by
  have hstep : engine_step shell st (BashCmd.bashEnv c) =
      Except.error (CheckerError.executionError ex) := by
    simp only [engine_step, h]
  refine ⟨hstep, ?_, engine_run_cur_mono shell₂ st₃ st₄ cmds h₂⟩
  simp only [engine_run, hstep]

theorem C9_append_only_on_success_witness :
    engine_step shellFailing
      { current_env_altering_commands := [], most_recent_result := none }
      (BashCmd.bashEnv "ezport FOO=foo") =
      Except.error (CheckerError.executionError { returncode := 2, output := "" })
    ∧ engine_run shellFailing
        { current_env_altering_commands := [], most_recent_result := none }
        [BashCmd.bashEnv "ezport FOO=foo", BashCmd.bashOutput "foo"] =
      Except.error (CheckerError.executionError { returncode := 2, output := "" })
    ∧ [BashCmd.bashEnv "export FOO=foo"] <+:
        [BashCmd.bashEnv "export FOO=foo", BashCmd.bashEnv "export BAR=bar"] :=
  C9_append_only_on_success shellFailing shellConstFoo
    { current_env_altering_commands := [], most_recent_result := none }
    { current_env_altering_commands := [BashCmd.bashEnv "export FOO=foo"],
      most_recent_result := some "foo\n" }
    { current_env_altering_commands :=
        [BashCmd.bashEnv "export FOO=foo", BashCmd.bashEnv "export BAR=bar"],
      most_recent_result := some "foo\n" }
    "ezport FOO=foo" { returncode := 2, output := "" }
    [BashCmd.bashOutput "foo"] [BashCmd.bashEnv "export BAR=bar"]
    (by rfl) (by rfl)

/-- Claim C10: the `trim_trailing_newline` parameter of
`compare_with_actual_output` defaults to false, so calling it without that
argument is exact string equality with no trimming at all — actual `"foo\n"`
does not match expected `"foo"` — and the trim happens on the engine's
assertion path only because it passes true explicitly. -/
theorem C10_default_is_no_trim (e a r : String) (shell : Shell)
    (st : EngineState) (h : st.most_recent_result = some r) :
    trim_trailing_newline_default = false
    ∧ compare_with_actual_output_nodefaultarg e a =
        compare_with_actual_output e a false
    ∧ (compare_with_actual_output e a false = Except.ok () ↔ e = a)
    ∧ compare_with_actual_output_nodefaultarg "foo" "foo\n" =
        Except.error { expected := "foo", actual := "foo\n" }
    ∧ engine_step shell st (BashCmd.bashOutput e) =
        (match compare_with_actual_output e r true with
         | Except.ok _ => Except.ok st
         | Except.error ce => Except.error (CheckerError.comparisonError ce)) := by
  refine ⟨rfl, rfl, ?_, by rfl, ?_⟩
  · simp only [compare_with_actual_output, Bool.false_and, if_false]
    by_cases he : e = a
    · simp [he]
    · simp [he]
  · simp only [engine_step, h]

theorem C10_default_is_no_trim_witness :
    trim_trailing_newline_default = false
    ∧ compare_with_actual_output_nodefaultarg "foo" "foo\n" =
        compare_with_actual_output "foo" "foo\n" false
    ∧ (compare_with_actual_output "foo" "foo\n" false = Except.ok () ↔
        "foo" = "foo\n")
    ∧ compare_with_actual_output_nodefaultarg "foo" "foo\n" =
        Except.error { expected := "foo", actual := "foo\n" }
    ∧ engine_step shellConstFoo
        { current_env_altering_commands := [], most_recent_result := some "foo\n" }
        (BashCmd.bashOutput "foo") =
      Except.ok { current_env_altering_commands := [], most_recent_result := some "foo\n" } :=
  C10_default_is_no_trim "foo" "foo\n" "foo\n" shellConstFoo
    { current_env_altering_commands := [], most_recent_result := some "foo\n" }
    (by rfl)

end MarkdownBashChecker
